import Mathlib

/-!
Verification of the static-file-handler builder (`fs.go` of the iris
repository) against its natural-language specification.

Strings are modelled as `List Char`.  Go's `strings.Replace` with a
one-character pattern is `replaceChar`, with the two-character pattern
`"//"` it is `collapseSlash`, and with an empty replacement it is
`removeChar`; all three follow Go's left-to-right non-overlapping scan.

The builder `fsHandler` is modelled as a record carrying its mutable
configuration together with the `sync.Once` state: `built = none` means the
once-gate has not fired yet, `built = some h` stores the compiled handler.
The compiled handler closure of `Build` captures the route prefix, the
strip decision and the exception chain at build time, while `gzip` and
`listDirectories` are read from the builder record live at request time,
exactly as the Go closure reads them through the captured `w` pointer.
-/

set_option autoImplicit false

namespace Iris

/-- Modelled from the spec: the URL separator constant `slash`, which is
defined outside `src/fs.go`; the spec calls it the URL separator. -/
def slash : Char := '/'

/-- Go `strings.Replace s old new -1` for a one-character pattern `old`:
each occurrence of the character is replaced. -/
def replaceChar (old new_ : Char) : List Char → List Char
  | [] => []
  | c :: rest => (if c = old then new_ else c) :: replaceChar old new_ rest

/-- Go `strings.Replace s "." "" -1`: every occurrence of the character
is removed. -/
def removeChar (old : Char) : List Char → List Char
  | [] => []
  | c :: rest =>
    if c = old then removeChar old rest else c :: removeChar old rest

/-- Go `strings.Replace s "//" "/" -1`: left-to-right non-overlapping
replacement of the two-character pattern `//` by `/`. -/
def collapseSlash : List Char → List Char
  | [] => []
  | [c] => [c]
  | c :: d :: rest =>
    if c = '/' ∧ d = '/' then '/' :: collapseSlash rest
    else c :: collapseSlash (d :: rest)

/-- Function `toWebPath` of fs.go lines 43-51: backslashes to slashes, then
one replacement pass of double slashes to single, then removal of all
dots. -/
def toWebPath (systemPath : List Char) : List Char :=
  removeChar '.' (collapseSlash (replaceChar '\\' slash systemPath))

/-- Helper for the amended C5 statement: does the list contain two
consecutive slashes? -/
def hasDoubleSlash : List Char → Bool
  | [] => false
  | [_] => false
  | c :: d :: rest =>
    if c = '/' ∧ d = '/' then true else hasDoubleSlash (d :: rest)

/-!  ## Prefix stripping

Function `StripPrefix` (fs.go lines 198-210) and the standard-library
`http.StripPrefix` used inside `Build` (line 157) have the same body:
`strings.TrimPrefix` followed by a length test, falling back to NotFound.
The outcome of invoking the returned handler on a request path is either
"the wrapped handler runs on a rewritten path" or "not found". -/

/-- Outcome of the prefix-stripping handler on one request. -/
inductive StripResult where
  /-- The wrapped handler is invoked with this (possibly rewritten) path. -/
  | served (newPath : List Char)
  /-- The context's NotFound runs; the wrapped handler is never invoked. -/
  | notFound
  deriving DecidableEq, Repr

/-- Go `strings.TrimPrefix`: drop `pre` if it is a prefix, else identity. -/
def trimPrefix (pre s : List Char) : List Char :=
  if pre.isPrefixOf s then s.drop pre.length else s

/-- Function `StripPrefix` of fs.go lines 198-210 (identical in body to the
`http.StripPrefix` call used at line 157): an empty prefix returns the
wrapped handler unchanged; otherwise the path is trimmed and served only if
it got strictly shorter, and NotFound is produced otherwise. -/
def stripPrefix (pre path : List Char) : StripResult :=
  if pre = [] then .served path
  else
    if (trimPrefix pre path).length < path.length then
      .served (trimPrefix pre path)
    else .notFound

/-!  ## MIME resolution (`typeByExtension`, fs.go lines 229-262)

The system table `mime.TypeByExtension` is outside this file's code; it is
modelled as a function argument `sys`.  Go's `filepath.Ext` scans the path
backwards for the last dot of the final path element. -/

/-- Scan the reversed file name: a separator before any dot means no
extension; at the first dot the accumulated suffix (in original order) is
returned with the dot in front.  This is `filepath.Ext`'s backward loop. -/
def extFromRevAux (acc : List Char) : List Char → List Char
  | [] => []
  | c :: rest =>
    if c = '/' then []
    else if c = '.' then c :: acc
    else extFromRevAux (c :: acc) rest

/-- Go `filepath.Ext`: the suffix beginning at the final dot in the final
element of the path; empty if there is none. -/
def filepathExt (s : List Char) : List Char :=
  extFromRevAux [] s.reverse

/-- The hand-written fallback chain of `typeByExtension`, fs.go lines
233-254: consulted only when the system table yields the empty string. -/
def mimeFallback (ext : List Char) : List Char :=
  if ext = ".json".data then "application/json".data
  else if ext = ".js".data then "application/javascript".data
  else if ext = ".zip".data then "application/zip".data
  else if ext = ".3gp".data then "video/3gpp".data
  else if ext = ".7z".data then "application/x-7z-compressed".data
  else if ext = ".ace".data then "application/x-ace-compressed".data
  else if ext = ".aac".data then "audio/x-aac".data
  else if ext = ".ico".data then "image/x-icon".data
  else if ext = ".png".data then "image/png".data
  else "application/octet-stream".data

/-- Function `typeByExtension` of fs.go lines 229-262, with the system
table `mime.TypeByExtension` abstracted as `sys`.  A non-empty system
result is returned unchanged unless it is exactly the generic text type
(with or without the UTF-8 charset parameter) and the extension is `.js`,
in which case it is overridden to the script type. -/
def typeByExtension (sys : List Char → List Char) (fullfilename : List Char) :
    List Char :=
  if sys (filepathExt fullfilename) = [] then
    mimeFallback (filepathExt fullfilename)
  else if sys (filepathExt fullfilename) = "text/plain".data
      ∨ sys (filepathExt fullfilename) = "text/plain; charset=utf-8".data then
    if filepathExt fullfilename = ".js".data then
      "application/javascript".data
    else sys (filepathExt fullfilename)
  else sys (filepathExt fullfilename)

/-!  ## The listing-suppressing file system (fs.go lines 118-143) -/

/-- An `http.File` as far as fs.go observes it: an abstract read-side
content (untouched by the wrapper) and the `Readdir` operation, returning
a list of file infos (abstract, of type `ι`) and an optional error. -/
structure GoFile (ι : Type) where
  content : List Char
  readdir : Int → List ι × Option (List Char)

/-- Wrapper `noListFile` of fs.go lines 118-127: embeds the file and
overrides only `Readdir`, which returns `(nil, nil)`. -/
def noListFile {ι : Type} (f : GoFile ι) : GoFile ι :=
  { f with readdir := fun _ => ([], none) }

/-!  ## The builder state (fs.go lines 29-41) -/

/-- Route descriptors (`RouteInfo`) are opaque to fs.go: only their
identity and their order matter, so they are modelled as naturals. -/
abbrev RouteInfo := Nat

/-- One entry of the middleware chain assembled by `Build`
(fs.go lines 174-187): a prioritized exception route or the composed
static handler `h`. -/
inductive ChainEntry where
  | exceptionRoute (r : RouteInfo)
  | staticHandler
  deriving DecidableEq, Repr

/-- The value stored in `w.handler` by the once-body of `Build`: the
route prefix and the strip decision captured at build time, and, when
exception routes were registered, the middleware chain (`chain = none`
means the static handler `h` was returned directly). -/
structure CompiledHandler where
  prefixPath : List Char
  strip : Bool
  chain : Option (List ChainEntry)
  deriving DecidableEq, Repr

/-- The `fsHandler` record of fs.go lines 29-41.  `built` is the
`sync.Once` state together with the stored `handler`; `buildCount` counts
executions of the once-body (the spec's injected side-effect counter);
`filesystem` is `none` until the once-body assigns `w.filesystem =
w.directory`. -/
structure FsHandler where
  directory : List Char
  requestPath : List Char
  stripPath : Bool
  gzip : Bool
  listDirectories : Bool
  exceptions : List RouteInfo
  filesystem : Option (List Char)
  built : Option CompiledHandler
  buildCount : Nat
  deriving DecidableEq, Repr

/-- Constructor `NewStaticHandlerBuilder` of fs.go lines 71-83.  The
`filepath.Abs` call is outside fs.go and depends on the process working
directory; it is passed in as `absf`.  Note the request path defaults to
`toWebPath dir`, not `toWebPath (absf dir)`, exactly as in the source. -/
def newStaticHandlerBuilder (absf : List Char → List Char)
    (dir : List Char) : FsHandler :=
  { directory := absf dir
    requestPath := toWebPath dir
    stripPath := true
    gzip := false
    listDirectories := false
    exceptions := []
    filesystem := none
    built := none
    buildCount := 0 }

/-- Mutator `Path` (fs.go lines 87-90). -/
def FsHandler.Path (w : FsHandler) (requestRoutePath : List Char) :
    FsHandler :=
  { w with requestPath := toWebPath requestRoutePath }

/-- Mutator `Gzip` (fs.go lines 94-97). -/
def FsHandler.Gzip (w : FsHandler) (enable : Bool) : FsHandler :=
  { w with gzip := enable }

/-- Mutator `Listing` (fs.go lines 101-104). -/
def FsHandler.Listing (w : FsHandler) (onOff : Bool) : FsHandler :=
  { w with listDirectories := onOff }

/-- Mutator `StripPath` (fs.go lines 106-109). -/
def FsHandler.StripPath (w : FsHandler) (yesNo : Bool) : FsHandler :=
  { w with stripPath := yesNo }

/-- Mutator `Except` (fs.go lines 113-116): appends to the exception
list. -/
def FsHandler.Except (w : FsHandler) (r : List RouteInfo) : FsHandler :=
  { w with exceptions := w.exceptions ++ r }

/-- Method `Open` of fs.go lines 131-143, the `http.FileSystem`
implementation: delegate to the wrapped file system (abstracted as
`underlying`, since `http.Dir`'s disk access is outside fs.go); on error
propagate it; on success wrap in `noListFile` unless `w.listDirectories`
is set — the flag is read live from the builder record at call time. -/
def fsHandlerOpen {ι : Type} (w : FsHandler)
    (underlying : List Char → Except (List Char) (GoFile ι))
    (name : List Char) : Except (List Char) (GoFile ι) :=
  match underlying name with
  | .error e => .error e
  | .ok info => if !w.listDirectories then .ok (noListFile info) else .ok info

/-- The loop of fs.go lines 175-179: a slice of length `len+1` whose
entry `i` is `Prioritize(exceptions[i])` and whose last entry is the
static handler `h`. -/
def buildMiddleware : List RouteInfo → List ChainEntry
  | [] => [.staticHandler]
  | e :: rest => .exceptionRoute e :: buildMiddleware rest

/-- Method `Build` of fs.go lines 146-191.  `w.once.Do` is modelled by the
match on `w.built`: when the handler is already stored it is returned
without running the once-body; otherwise the once-body runs — it wraps the
file system (`w.filesystem = w.directory`, counted by `buildCount`),
captures the prefix and strip decision, assembles the middleware chain
when exceptions exist, and stores the handler. -/
def FsHandler.Build (w : FsHandler) : FsHandler × CompiledHandler :=
  match w.built with
  | some h => (w, h)
  | none =>
    ({ w with
        filesystem := some w.directory
        built := some
          { prefixPath := w.requestPath
            strip := w.stripPath
            chain := if w.exceptions.length > 0 then
                some (buildMiddleware w.exceptions)
              else none }
        buildCount := w.buildCount + 1 },
     { prefixPath := w.requestPath
       strip := w.stripPath
       chain := if w.exceptions.length > 0 then
           some (buildMiddleware w.exceptions)
         else none })

/-- Iterated calls of `Build` on the same builder (threading the state). -/
def iterBuild : Nat → FsHandler → FsHandler
  | 0, w => w
  | n + 1, w => iterBuild n (FsHandler.Build w).1

/-- The handlers returned by `n` successive calls of `Build`. -/
def buildOutputs : Nat → FsHandler → List CompiledHandler
  | 0, _ => []
  | n + 1, w =>
    (FsHandler.Build w).2 :: buildOutputs n (FsHandler.Build w).1

/-!  ## Per-request behavior of the compiled handler (fs.go lines 152-172)

`http.FileServer(w)` resolves the (possibly rewritten) path through the
listing-suppressing file system; its disk behavior is external, so the
observable outcome records the path it was invoked on and the live value
of the listing flag it reads through `w.Open`. -/

/-- Modelled from the spec: the header-name constants `varyHeader`,
`acceptEncodingHeader` and `contentEncodingHeader` are defined outside
`src/fs.go`; the spec names the headers `Vary: Accept-Encoding` and
`Content-Encoding: gzip`. -/
def acceptEncodingHeader : List Char := "Accept-Encoding".data

/-- One HTTP request as the handler observes it: the URL path, and
whether the client declares gzip support (`ctx.clientAllowsGzip()`,
defined outside `src/fs.go`, modelled from the spec as this flag). -/
structure Request where
  path : List Char
  acceptsGzip : Bool
  deriving DecidableEq, Repr

/-- What `fsHandler.ServeHTTP` (the possibly strip-wrapped file server)
does with a request: not-found from the strip wrapper, or an invocation of
the file server on a path under the live listing flag. -/
inductive ServeOutcome where
  | notFound
  | fileServed (path : List Char) (listingEnabled : Bool)
  deriving DecidableEq, Repr

/-- The observable effect of one run of the request-handling closure `h`
(fs.go lines 160-172): the two response headers it may set, whether the
pooled gzip writer was acquired as the write target and released on
return, and the inner serve outcome. -/
structure Response where
  vary : Option (List Char)
  contentEncoding : Option (List Char)
  usedGzipWriter : Bool
  releasedGzipWriter : Bool
  body : ServeOutcome
  deriving DecidableEq, Repr

/-- The request-handling closure `h` of fs.go lines 160-172, run against
the live builder record `live` (the closure reads `w.gzip` through the
captured pointer) with the build-time captures in `hdl`. -/
def serveStatic (hdl : CompiledHandler) (live : FsHandler) (req : Request) :
    Response :=
  { vary := if live.gzip && req.acceptsGzip then some acceptEncodingHeader
      else none
    contentEncoding := if live.gzip && req.acceptsGzip then some "gzip".data
      else none
    usedGzipWriter := live.gzip && req.acceptsGzip
    releasedGzipWriter := live.gzip && req.acceptsGzip
    body :=
      if hdl.strip then
        match stripPrefix hdl.prefixPath req.path with
        | .served p => .fileServed p live.listDirectories
        | .notFound => .notFound
      else .fileServed req.path live.listDirectories }

/-- The behavior of the stored handler of a built builder on one request
(`none` when `Build` has not run). -/
def observe (w : FsHandler) (req : Request) : Option Response :=
  w.built.map fun hdl => serveStatic hdl w req

/-!  ## Sanity checks on concrete inputs -/

example : toWebPath "///".data = "//".data := by decide
example : toWebPath (toWebPath "///".data) = "/".data := by decide
example : toWebPath "/www/a.b".data = "/www/ab".data := by decide
example : stripPrefix "/static".data "/other/x".data = .notFound := by decide
example : stripPrefix "/static".data "/static/x".data = .served "/x".data := by
  decide
example : stripPrefix "".data "/a".data = .served "/a".data := by decide
example : stripPrefix "/static".data "/static".data = .served [] := by decide
example : filepathExt "app.js".data = ".js".data := by decide
example : filepathExt "dir/file".data = [] := by decide
example : typeByExtension (fun _ => []) "a.unknownext".data
    = "application/octet-stream".data := by decide

/-!  ## Lemmas about the path normalizer -/

lemma replaceChar_no_old (old new_ : Char) (hne : new_ ≠ old) (s : List Char) :
    ∀ c ∈ replaceChar old new_ s, c ≠ old := by
  induction s with
  | nil => intro c hc; cases hc
  | cons a rest ih =>
    intro c hc
    simp only [replaceChar, List.mem_cons] at hc
    rcases hc with h | h
    · by_cases ha : a = old
      · simp [ha] at h; subst h; exact hne
      · simp [ha] at h; subst h; exact ha
    · exact ih c h

lemma replaceChar_id (old new_ : Char) (s : List Char)
    (h : ∀ c ∈ s, c ≠ old) : replaceChar old new_ s = s := by
  induction s with
  | nil => rfl
  | cons a rest ih =>
    have ha : a ≠ old := h a (List.mem_cons_self a rest)
    simp only [replaceChar, if_neg ha]
    exact congrArg (a :: ·) (ih fun c hc => h c (List.mem_cons_of_mem a hc))

lemma removeChar_no_old (old : Char) (s : List Char) :
    ∀ c ∈ removeChar old s, c ≠ old := by
  induction s with
  | nil => intro c hc; cases hc
  | cons a rest ih =>
    intro c hc
    by_cases ha : a = old
    · simp only [removeChar, if_pos ha] at hc; exact ih c hc
    · simp only [removeChar, if_neg ha, List.mem_cons] at hc
      rcases hc with h | h
      · subst h; exact ha
      · exact ih c h

lemma removeChar_id (old : Char) (s : List Char)
    (h : ∀ c ∈ s, c ≠ old) : removeChar old s = s := by
  induction s with
  | nil => rfl
  | cons a rest ih =>
    have ha : a ≠ old := h a (List.mem_cons_self a rest)
    simp only [removeChar, if_neg ha]
    exact congrArg (a :: ·) (ih fun c hc => h c (List.mem_cons_of_mem a hc))

lemma removeChar_subset (old : Char) (s : List Char) :
    ∀ c ∈ removeChar old s, c ∈ s := by
  induction s with
  | nil => intro c hc; cases hc
  | cons a rest ih =>
    intro c hc
    by_cases ha : a = old
    · simp only [removeChar, if_pos ha] at hc
      exact List.mem_cons_of_mem a (ih c hc)
    · simp only [removeChar, if_neg ha, List.mem_cons] at hc
      rcases hc with h | h
      · simp [h]
      · exact List.mem_cons_of_mem a (ih c h)

lemma collapseSlash_mem (s : List Char) :
    ∀ c ∈ collapseSlash s, c ∈ s ∨ c = '/' := by
  induction s using collapseSlash.induct with
  | case1 => intro c hc; cases hc
  | case2 d => intro c hc; exact Or.inl hc
  | case3 a d rest had ih =>
    intro c hc
    simp only [collapseSlash, if_pos had, List.mem_cons] at hc
    rcases hc with h | h
    · exact Or.inr h
    · rcases ih c h with h' | h'
      · exact Or.inl (by simp [List.mem_cons]; tauto)
      · exact Or.inr h'
  | case4 a d rest had ih =>
    intro c hc
    simp only [collapseSlash, if_neg had, List.mem_cons] at hc
    rcases hc with h | h
    · exact Or.inl (by simp [h])
    · rcases ih c h with h' | h'
      · exact Or.inl (by simp [List.mem_cons] at h' ⊢; tauto)
      · exact Or.inr h'

lemma collapseSlash_of_no_double (s : List Char)
    (h : hasDoubleSlash s = false) : collapseSlash s = s := by
  induction s using collapseSlash.induct with
  | case1 => rfl
  | case2 d => rfl
  | case3 a d rest had ih =>
    exfalso
    simp only [hasDoubleSlash, if_pos had] at h
    exact absurd h (by decide)
  | case4 a d rest had ih =>
    simp only [hasDoubleSlash, if_neg had] at h
    simp only [collapseSlash, if_neg had]
    exact congrArg (a :: ·) (ih h)

lemma toWebPath_no_backslash (p : List Char) :
    ∀ c ∈ toWebPath p, c ≠ '\\' := by
  intro c hc
  have h1 : c ∈ collapseSlash (replaceChar '\\' slash p) :=
    removeChar_subset '.' _ c hc
  rcases collapseSlash_mem _ c h1 with h2 | h2
  · exact replaceChar_no_old '\\' slash (by decide) p c h2
  · subst h2; decide

lemma toWebPath_no_dot (p : List Char) :
    ∀ c ∈ toWebPath p, c ≠ '.' :=
  removeChar_no_old '.' _

/-- The normalizer applied to an already-normalized path only has work left
for the double-slash pass: the backslash pass and the dot pass are
identities on any output of `toWebPath`. -/
lemma toWebPath_toWebPath (p : List Char) :
    toWebPath (toWebPath p)
      = removeChar '.' (collapseSlash (toWebPath p)) := by
  have h : replaceChar '\\' slash (toWebPath p) = toWebPath p :=
    replaceChar_id _ _ _ (toWebPath_no_backslash p)
  calc toWebPath (toWebPath p)
      = removeChar '.' (collapseSlash (replaceChar '\\' slash (toWebPath p)))
        := rfl
    _ = removeChar '.' (collapseSlash (toWebPath p)) := by rw [h]

/-- Idempotence under the no-double-slash side condition. -/
lemma toWebPath_idem_of_no_double (p : List Char)
    (h : hasDoubleSlash (toWebPath p) = false) :
    toWebPath (toWebPath p) = toWebPath p := by
  rw [toWebPath_toWebPath, collapseSlash_of_no_double _ h,
      removeChar_id '.' _ (toWebPath_no_dot p)]

/-!  ## Lemmas about prefix stripping -/

lemma isPre_append_drop (pre s : List Char) (h : pre.isPrefixOf s) :
    pre ++ s.drop pre.length = s := by
  obtain ⟨t, rfl⟩ := List.isPrefixOf_iff_prefix.mp h
  rw [List.drop_left]

lemma drop_length_lt (pre s : List Char) (hne : pre ≠ [])
    (h : pre.isPrefixOf s) : (s.drop pre.length).length < s.length := by
  obtain ⟨t, rfl⟩ := List.isPrefixOf_iff_prefix.mp h
  have hpos : 0 < pre.length := List.length_pos.mpr hne
  simp only [List.length_drop, List.length_append]
  omega

/-!  ## Lemmas about extension extraction -/

lemma extFromRevAux_js (u : List Char) :
    extFromRevAux [] ('s' :: 'j' :: '.' :: u) = ".js".data := rfl

lemma filepathExt_js (fname : List Char) (h : ".js".data <:+ fname) :
    filepathExt fname = ".js".data := by
  obtain ⟨t, rfl⟩ := h
  show extFromRevAux [] ((t ++ ".js".data).reverse) = ".js".data
  rw [List.reverse_append]
  exact extFromRevAux_js t.reverse

/-!  ## Lemmas about the once-gated build -/

lemma build_of_built (w : FsHandler) (hdl : CompiledHandler)
    (hb : w.built = some hdl) : FsHandler.Build w = (w, hdl) := by
  simp only [FsHandler.Build, hb]

lemma build_fresh_built (w : FsHandler) (hb : w.built = none) :
    (FsHandler.Build w).1.built = some (FsHandler.Build w).2 := by
  simp only [FsHandler.Build, hb]

lemma build_fresh_count (w : FsHandler) (hb : w.built = none) :
    (FsHandler.Build w).1.buildCount = w.buildCount + 1 := by
  simp only [FsHandler.Build, hb]

lemma iterBuild_of_built (n : Nat) (w : FsHandler) (hdl : CompiledHandler)
    (hb : w.built = some hdl) : iterBuild n w = w := by
  induction n with
  | zero => rfl
  | succ m ih =>
    show iterBuild m (FsHandler.Build w).1 = w
    rw [build_of_built w hdl hb]
    exact ih

lemma buildOutputs_of_built (n : Nat) (w : FsHandler) (hdl : CompiledHandler)
    (hb : w.built = some hdl) : buildOutputs n w = List.replicate n hdl := by
  induction n with
  | zero => rfl
  | succ m ih =>
    show (FsHandler.Build w).2 :: buildOutputs m (FsHandler.Build w).1
        = List.replicate (m + 1) hdl
    rw [build_of_built w hdl hb, ih, List.replicate_succ]

lemma buildMiddleware_eq (es : List RouteInfo) :
    buildMiddleware es
      = es.map ChainEntry.exceptionRoute ++ [ChainEntry.staticHandler] := by
  induction es with
  | nil => rfl
  | cons e rest ih => simp [buildMiddleware, ih]

/-!  ## The claims -/

/-- C1: for every builder instance (a builder state whose once-gate has not
fired and whose side-effect counter is zero), calling Build any number
n ≥ 1 of times runs the composition body exactly once — the counter on the
file-system wrapping ends at 1 — and every call returns the same compiled
handler as the first call. -/
theorem build_runs_composition_once (w : FsHandler) (hb : w.built = none)
    (hc : w.buildCount = 0) (n : Nat) (hn : 1 ≤ n) :
    (iterBuild n w).buildCount = 1 ∧
    ∀ hdl ∈ buildOutputs n w, hdl = (FsHandler.Build w).2 := by
  obtain ⟨m, rfl⟩ : ∃ m, n = m + 1 := ⟨n - 1, by omega⟩
  have h1 : (FsHandler.Build w).1.built = some (FsHandler.Build w).2 :=
    build_fresh_built w hb
  have h2 : (FsHandler.Build w).1.buildCount = 1 := by
    rw [build_fresh_count w hb, hc]
  constructor
  · show (iterBuild m (FsHandler.Build w).1).buildCount = 1
    rw [iterBuild_of_built m _ _ h1, h2]
  · intro hdl hmem
    rw [show buildOutputs (m + 1) w
          = (FsHandler.Build w).2 :: buildOutputs m (FsHandler.Build w).1
        from rfl,
      buildOutputs_of_built m _ _ h1] at hmem
    rcases List.mem_cons.mp hmem with h | h
    · exact h
    · exact List.eq_of_mem_replicate h

/-- Witness for C1 at a fresh builder and three Build calls. -/
theorem build_runs_composition_once_witness :
    (newStaticHandlerBuilder id "/www".data).built = none ∧
    (newStaticHandlerBuilder id "/www".data).buildCount = 0 ∧
    1 ≤ 3 ∧
    ((iterBuild 3 (newStaticHandlerBuilder id "/www".data)).buildCount = 1 ∧
      ∀ hdl ∈ buildOutputs 3 (newStaticHandlerBuilder id "/www".data),
        hdl = (FsHandler.Build (newStaticHandlerBuilder id "/www".data)).2) :=
  ⟨rfl, rfl, by decide,
    build_runs_composition_once _ rfl rfl 3 (by decide)⟩

/-- C2: for a non-empty prefix, the prefix-stripping handler removes
exactly one leading occurrence of the prefix (the prefix glued back onto
the rewritten path restores the original) and serves the wrapped handler
on the rewritten path; when the prefix does not match, the result is
not-found and the wrapped handler is never invoked; the empty prefix
serves the path unmodified. -/
theorem stripPrefix_spec (pre path : List Char) :
    (pre = [] → stripPrefix pre path = .served path) ∧
    (pre ≠ [] → pre.isPrefixOf path = true →
      stripPrefix pre path = .served (path.drop pre.length) ∧
      pre ++ path.drop pre.length = path) ∧
    (pre ≠ [] → pre.isPrefixOf path = false →
      stripPrefix pre path = .notFound) := by
  refine ⟨fun h => ?_, fun hne hp => ?_, fun hne hnp => ?_⟩
  · simp [stripPrefix, h]
  · have htrim : trimPrefix pre path = path.drop pre.length := by
      simp [trimPrefix, hp]
    have hlt : (path.drop pre.length).length < path.length :=
      drop_length_lt pre path hne hp
    constructor
    · unfold stripPrefix
      rw [if_neg hne, htrim, if_pos hlt]
    · exact isPre_append_drop pre path hp
  · have htrim : trimPrefix pre path = path := by
      simp [trimPrefix, hnp]
    unfold stripPrefix
    rw [if_neg hne, htrim, if_neg (lt_irrefl path.length)]

/-- Witness for C2 at prefix "/static" with a matching and a
non-matching request path. -/
theorem stripPrefix_spec_witness :
    ("/static".data ≠ ([] : List Char)) ∧
    (stripPrefix "/static".data "/static/x".data
        = .served ("/static/x".data.drop "/static".data.length) ∧
      "/static".data ++ "/static/x".data.drop "/static".data.length
        = "/static/x".data) ∧
    stripPrefix "/static".data "/other/x".data = .notFound :=
  ⟨by decide,
    (stripPrefix_spec "/static".data "/static/x".data).2.1
      (by decide) (by decide),
    (stripPrefix_spec "/static".data "/other/x".data).2.2
      (by decide) (by decide)⟩

/-- C3: for every filename ending in ".js" and every system-table result,
the resolver returns "application/javascript" whenever the system table
reports nothing or the generic text type (with or without the UTF-8
charset parameter), and its result is never the generic text type. -/
theorem typeByExtension_js_never_plain (sys : List Char → List Char)
    (fname : List Char) (hjs : ".js".data <:+ fname) :
    ((sys ".js".data = [] ∨ sys ".js".data = "text/plain".data
        ∨ sys ".js".data = "text/plain; charset=utf-8".data) →
      typeByExtension sys fname = "application/javascript".data) ∧
    typeByExtension sys fname ≠ "text/plain".data ∧
    typeByExtension sys fname ≠ "text/plain; charset=utf-8".data := by
  have hext : filepathExt fname = ".js".data := filepathExt_js fname hjs
  have hm : mimeFallback ".js".data = "application/javascript".data := by
    decide
  unfold typeByExtension
  rw [hext]
  by_cases h0 : sys ".js".data = []
  · rw [if_pos h0, hm]
    exact ⟨fun _ => rfl, by decide, by decide⟩
  · rw [if_neg h0]
    by_cases h1 : sys ".js".data = "text/plain".data
        ∨ sys ".js".data = "text/plain; charset=utf-8".data
    · rw [if_pos h1, if_pos rfl]
      exact ⟨fun _ => rfl, by decide, by decide⟩
    · rw [if_neg h1]
      refine ⟨fun hc => ?_, fun he => h1 (Or.inl he),
        fun he => h1 (Or.inr he)⟩
      rcases hc with hc | hc | hc
      · exact absurd hc h0
      · exact absurd (Or.inl hc) h1
      · exact absurd (Or.inr hc) h1

/-- Witness for C3: a system table answering the generic text type with
charset gets overridden to the script type on "app.js". -/
theorem typeByExtension_js_never_plain_witness :
    typeByExtension (fun _ => "text/plain; charset=utf-8".data)
        "app.js".data
      = "application/javascript".data :=
  (typeByExtension_js_never_plain
      (fun _ => "text/plain; charset=utf-8".data) "app.js".data
      (by decide)).1 (Or.inr (Or.inr rfl))

/-- C4 counterexample: toggling Listing after Build changes the compiled
handler's observable behavior on the same request — the listing flag is
read live through the captured builder pointer, so the claim that every
post-build mutator (including Listing) has no effect is false. -/
theorem post_build_listing_changes_behavior :
    observe (FsHandler.Listing
        (FsHandler.Build (newStaticHandlerBuilder id "/www".data)).1 true)
      { path := "/www/assets".data, acceptsGzip := false }
    ≠ observe (FsHandler.Build (newStaticHandlerBuilder id "/www".data)).1
      { path := "/www/assets".data, acceptsGzip := false } := by
  decide

/-- C4 (amended): after Build, the mutators Path, StripPath and Except
have no effect on the compiled handler's observable behavior, and no
mutator causes a rebuild (the stored handler is unchanged by all five);
Gzip and Listing, however, are read live by the compiled handler and do
change behavior, as the counterexample shows. -/
theorem post_build_path_strip_except_no_effect (w : FsHandler)
    (p : List Char) (yn b1 b2 : Bool) (rs : List RouteInfo)
    (req : Request) :
    observe (FsHandler.Path w p) req = observe w req ∧
    observe (FsHandler.StripPath w yn) req = observe w req ∧
    observe (FsHandler.Except w rs) req = observe w req ∧
    (FsHandler.Path w p).built = w.built ∧
    (FsHandler.StripPath w yn).built = w.built ∧
    (FsHandler.Except w rs).built = w.built ∧
    (FsHandler.Gzip w b1).built = w.built ∧
    (FsHandler.Listing w b2).built = w.built :=
  ⟨rfl, rfl, rfl, rfl, rfl, rfl, rfl, rfl⟩

/-- C5 counterexample: the normalizer is not idempotent — at the system
path "///" one pass yields "//" and a second pass yields "/". -/
theorem toWebPath_not_idempotent :
    toWebPath (toWebPath "///".data) ≠ toWebPath "///".data := by decide

/-- C5 (amended): the normalizer's output contains no platform separator
(backslash) and no dot, but the double-slash collapse is a single
left-to-right pass, so idempotence holds exactly on the paths whose
normalized form has no remaining doubled slash. -/
theorem toWebPath_idempotent_amended (p : List Char)
    (h : hasDoubleSlash (toWebPath p) = false) :
    (∀ c ∈ toWebPath p, c ≠ '\\' ∧ c ≠ '.') ∧
    toWebPath (toWebPath p) = toWebPath p :=
  ⟨fun c hc => ⟨toWebPath_no_backslash p c hc, toWebPath_no_dot p c hc⟩,
    toWebPath_idem_of_no_double p h⟩

/-- Witness for the amended C5 at a Windows-style path with dots. -/
theorem toWebPath_idempotent_amended_witness :
    hasDoubleSlash (toWebPath "C:\\www\\a.b".data) = false ∧
    ((∀ c ∈ toWebPath "C:\\www\\a.b".data, c ≠ '\\' ∧ c ≠ '.') ∧
      toWebPath (toWebPath "C:\\www\\a.b".data)
        = toWebPath "C:\\www\\a.b".data) :=
  ⟨by decide, toWebPath_idempotent_amended _ (by decide)⟩

/-- C6: every file handle obtained through the wrapping Open while
directory listing is disabled answers every Readdir call with the empty
list and no error, whatever the underlying file's real contents are. -/
theorem open_suppresses_listing {ι : Type} (w : FsHandler)
    (underlying : List Char → Except (List Char) (GoFile ι))
    (hld : w.listDirectories = false) (name : List Char) (f : GoFile ι)
    (count : Int)
    (hopen : fsHandlerOpen w underlying name = .ok f) :
    f.readdir count = ([], none) := by
  unfold fsHandlerOpen at hopen
  cases hu : underlying name with
  | error e =>
    rw [hu] at hopen
    simp at hopen
  | ok info =>
    rw [hu, hld] at hopen
    simp at hopen
    rw [← hopen]
    rfl

/-- Witness for C6: a directory with real contents and a failing real
Readdir still enumerates as empty through the wrapper. -/
theorem open_suppresses_listing_witness :
    (newStaticHandlerBuilder id "/www".data).listDirectories = false ∧
    fsHandlerOpen (newStaticHandlerBuilder id "/www".data)
        (fun _ => .ok
          (⟨"data".data, fun _ => ([0], some "real".data)⟩ : GoFile Nat))
        "assets".data
      = .ok (noListFile ⟨"data".data, fun _ => ([0], some "real".data)⟩) ∧
    (noListFile
        (⟨"data".data, fun _ => ([0], some "real".data)⟩ : GoFile Nat)).readdir
        7
      = ([], none) :=
  ⟨rfl, rfl,
    open_suppresses_listing (newStaticHandlerBuilder id "/www".data)
      (fun _ => .ok
        (⟨"data".data, fun _ => ([0], some "real".data)⟩ : GoFile Nat))
      rfl "assets".data
      (noListFile ⟨"data".data, fun _ => ([0], some "real".data)⟩)
      7 rfl⟩

/-- C7: building with registered exceptions produces a chain holding the
exceptions in insertion order followed by the static handler as final
fallback; with no exceptions the static handler is stored directly
(no chain); Except appends, preserving insertion order. -/
theorem build_exception_chain (w : FsHandler) (hb : w.built = none) :
    (w.exceptions = [] → ((FsHandler.Build w).2).chain = none) ∧
    (w.exceptions ≠ [] →
      ((FsHandler.Build w).2).chain
        = some (w.exceptions.map ChainEntry.exceptionRoute
            ++ [ChainEntry.staticHandler])) ∧
    (∀ rs, (FsHandler.Except w rs).exceptions = w.exceptions ++ rs) := by
  refine ⟨fun he => ?_, fun hne => ?_, fun rs => rfl⟩
  · simp [FsHandler.Build, hb, he]
  · have hpos : w.exceptions.length > 0 := List.length_pos.mpr hne
    simp only [FsHandler.Build, hb]
    rw [if_pos hpos, buildMiddleware_eq]

/-- Witness for C7 with two exception routes. -/
theorem build_exception_chain_witness :
    (FsHandler.Except (newStaticHandlerBuilder id "/www".data)
        [5, 9]).built = none ∧
    ((FsHandler.Build (FsHandler.Except
          (newStaticHandlerBuilder id "/www".data) [5, 9])).2).chain
      = some [ChainEntry.exceptionRoute 5, ChainEntry.exceptionRoute 9,
          ChainEntry.staticHandler] := by
  refine ⟨rfl, ?_⟩
  exact (build_exception_chain _ rfl).2.1 (by decide)

/-- C8: when gzip is enabled in the live configuration and the client
declares gzip support, one run of the compiled handler sets the
Vary: Accept-Encoding and Content-Encoding: gzip headers and writes
through the pooled gzip writer, releasing it on return; otherwise it sets
neither header and writes directly. -/
theorem gzip_header_behavior (hdl : CompiledHandler) (live : FsHandler)
    (req : Request) :
    (live.gzip = true → req.acceptsGzip = true →
      (serveStatic hdl live req).vary = some acceptEncodingHeader ∧
      (serveStatic hdl live req).contentEncoding = some "gzip".data ∧
      (serveStatic hdl live req).usedGzipWriter = true ∧
      (serveStatic hdl live req).releasedGzipWriter = true) ∧
    ((live.gzip && req.acceptsGzip) = false →
      (serveStatic hdl live req).vary = none ∧
      (serveStatic hdl live req).contentEncoding = none ∧
      (serveStatic hdl live req).usedGzipWriter = false ∧
      (serveStatic hdl live req).releasedGzipWriter = false) := by
  constructor
  · intro hg ha
    simp [serveStatic, hg, ha]
  · intro hf
    simp [serveStatic, hf]

/-- Witness for C8: gzip enabled and a gzip-accepting request. -/
theorem gzip_header_behavior_witness :
    (serveStatic ⟨"/www".data, true, none⟩
        (FsHandler.Gzip (newStaticHandlerBuilder id "/www".data) true)
        ⟨"/www/x".data, true⟩).vary = some acceptEncodingHeader ∧
    (serveStatic ⟨"/www".data, true, none⟩
        (FsHandler.Gzip (newStaticHandlerBuilder id "/www".data) true)
        ⟨"/www/x".data, true⟩).contentEncoding = some "gzip".data ∧
    (serveStatic ⟨"/www".data, true, none⟩
        (FsHandler.Gzip (newStaticHandlerBuilder id "/www".data) true)
        ⟨"/www/x".data, true⟩).usedGzipWriter = true ∧
    (serveStatic ⟨"/www".data, true, none⟩
        (FsHandler.Gzip (newStaticHandlerBuilder id "/www".data) true)
        ⟨"/www/x".data, true⟩).releasedGzipWriter = true :=
  (gzip_header_behavior _ _ _).1 rfl rfl

/-- C9: with the system table yielding nothing for these extensions (or
already agreeing for .json/.png), the resolver returns application/json
for .json filenames, image/png for .png filenames, and the generic binary
type for an extension matched by neither table. -/
theorem typeByExtension_fallback_values (sys : List Char → List Char)
    (fj fp fu : List Char)
    (hj : filepathExt fj = ".json".data)
    (hp : filepathExt fp = ".png".data)
    (hu : filepathExt fu = ".unknownext".data)
    (hsj : sys ".json".data = []
      ∨ sys ".json".data = "application/json".data)
    (hsp : sys ".png".data = [] ∨ sys ".png".data = "image/png".data)
    (hsu : sys ".unknownext".data = []) :
    typeByExtension sys fj = "application/json".data ∧
    typeByExtension sys fp = "image/png".data ∧
    typeByExtension sys fu = "application/octet-stream".data := by
  refine ⟨?_, ?_, ?_⟩
  · unfold typeByExtension
    rw [hj]
    rcases hsj with h | h <;> rw [h] <;> decide
  · unfold typeByExtension
    rw [hp]
    rcases hsp with h | h <;> rw [h] <;> decide
  · unfold typeByExtension
    rw [hu, hsu]
    decide

/-- Witness for C9 with an empty system table. -/
theorem typeByExtension_fallback_values_witness :
    typeByExtension (fun _ => []) "a.json".data
        = "application/json".data ∧
    typeByExtension (fun _ => []) "b.png".data = "image/png".data ∧
    typeByExtension (fun _ => []) "c.unknownext".data
        = "application/octet-stream".data :=
  typeByExtension_fallback_values (fun _ => []) _ _ _ (by decide)
    (by decide) (by decide) (Or.inl rfl) (Or.inl rfl) rfl

/-- C10: a request path exactly equal to a non-empty prefix is served,
not rejected: the rewritten path is the empty string, strictly shorter
than the original. -/
theorem stripPrefix_exact_match_serves_empty (pre : List Char)
    (hne : pre ≠ []) :
    stripPrefix pre pre = .served [] ∧
    ([] : List Char).length < pre.length := by
  have hp : pre.isPrefixOf pre = true :=
    List.isPrefixOf_iff_prefix.mpr (List.prefix_refl pre)
  have ht : trimPrefix pre pre = [] := by
    rw [trimPrefix, if_pos hp, List.drop_length]
  constructor
  · unfold stripPrefix
    rw [if_neg hne, ht]
    simp [List.length_pos.mpr hne]
  · simpa using List.length_pos.mpr hne

/-- Witness for C10 at the prefix "/static". -/
theorem stripPrefix_exact_match_serves_empty_witness :
    "/static".data ≠ ([] : List Char) ∧
    (stripPrefix "/static".data "/static".data = .served [] ∧
      ([] : List Char).length < "/static".data.length) :=
  ⟨by decide, stripPrefix_exact_match_serves_empty _ (by decide)⟩

end Iris
